import Mathlib

/-!
Verification of the scoolite command core (`src/src/command.rs`) against its
natural-language specification.  Rust strings are modelled as lists of
characters; the table, row and error types that live in the missing
`table.rs`, `row.rs` and `error.rs` files are modelled from the spec, as the
doc comments below record.
-/

set_option linter.unusedVariables false

namespace Scoolite

/-- Characters of a Rust `String` / `&str`, modelled as a list of `Char`. -/
abbrev Str := List Char

/-- Equality of `Except` values is decidable when it is on both sides. -/
instance exceptDecEq {ε α : Type} [DecidableEq ε] [DecidableEq α] :
    DecidableEq (Except ε α) := fun a b => by
  cases a with
  | ok x =>
    cases b with
    | ok y => exact if h : x = y then isTrue (by rw [h]) else isFalse (fun hc => h (by injection hc))
    | error y => exact isFalse (fun hc => by injection hc)
  | error x =>
    cases b with
    | ok y => exact isFalse (fun hc => by injection hc)
    | error y => exact if h : x = y then isTrue (by rw [h]) else isFalse (fun hc => h (by injection hc))

/-- The ASCII apostrophe character (code 39), used by the error message
templates of the source. -/
def quoteChar : Char := Char.ofNat 39

/-- The ASCII space character (code 32). -/
def spaceChar : Char := Char.ofNat 32

/-- The start half of Rust's `str::trim`: drop leading whitespace. -/
def trimLeft (s : Str) : Str := s.dropWhile Char.isWhitespace

/-- Rust's `str::trim`: drop leading and trailing whitespace. -/
def trim (s : Str) : Str := ((trimLeft s).reverse.dropWhile Char.isWhitespace).reverse

/-- Accumulator pass of Rust's `str::split_whitespace`; `acc` holds the
characters of the word currently being read, in reverse order. -/
def wordsAux : Str → Str → List Str
  | [], acc => if acc = [] then [] else [acc.reverse]
  | c :: cs, acc =>
    if c.isWhitespace then
      if acc = [] then wordsAux cs [] else acc.reverse :: wordsAux cs []
    else wordsAux cs (c :: acc)

/-- Rust's `str::split_whitespace`, collected into a list of tokens. -/
def words (s : Str) : List Str := wordsAux s []

/-- Modelled from the spec: `error.rs` is not under `src/`.  Spec §7 gives a
closed taxonomy of exactly these two error kinds, each carrying its
human-readable message. -/
inductive Error
  | UnrecognizedStatement (msg : Str)
  | SyntaxError (msg : Str)
deriving DecidableEq

/-- The text `Unrecognized keyword at start of '<input>'`. -/
def unrecognizedMsg (input : Str) : Str :=
  "Unrecognized keyword at start of ".toList ++ quoteChar :: (input ++ [quoteChar])

/-- `build_not_implemented_error` of `src/src/command.rs` (lines 36-39). -/
def build_not_implemented_error (input : Str) : Error :=
  Error.UnrecognizedStatement (unrecognizedMsg input)

/-- The text `Syntax error. Failed to parse '<field>' of input`. -/
def syntaxMsg (field : Str) : Str :=
  "Syntax error. Failed to parse ".toList ++ quoteChar :: (field ++ quoteChar :: " of input".toList)

/-- Modelled from the spec: `row.rs` is not under `src/`.  Spec §3: a row has a
non-negative integer identifier and two text fields. -/
structure Row where
  id : Nat
  username : Str
  email : Str
deriving DecidableEq

/-- Value of a string of decimal digits. -/
def digitsToNat (s : Str) : Nat := s.foldl (fun n c => n * 10 + (c.toNat - 48)) 0

/-- Modelled from the spec: the identifier "must parse as a valid non-negative
integer or the row is rejected" (spec §3); a non-empty token of decimal digits.
Missing, non-numeric and negative (leading sign) tokens are all rejected. -/
def parse_id (s : Str) : Option Nat :=
  if s = [] then none
  else if s.all Char.isDigit then some (digitsToNat s)
  else none

/-- Modelled from the spec: the field-by-field parsing of `row.rs`.  The
identifier is validated first; a missing or unparsable identifier yields the
`'id'` syntax error, and a missing username or email yields the syntax error
naming that field (spec §4.1). -/
def Row.parse_fields (toks : List Str) : Except Error Row :=
  match toks with
  | [] => Except.error (Error.SyntaxError (syntaxMsg "id".toList))
  | idTok :: rest =>
    match parse_id idTok with
    | none => Except.error (Error.SyntaxError (syntaxMsg "id".toList))
    | some n =>
      match rest with
      | [] => Except.error (Error.SyntaxError (syntaxMsg "username".toList))
      | userTok :: rest2 =>
        match rest2 with
        | [] => Except.error (Error.SyntaxError (syntaxMsg "email".toList))
        | emailTok :: _ => Except.ok ⟨n, userTok, emailTok⟩

/-- Modelled from the spec: `Row::from_str` of the missing `row.rs`.  It
receives the full statement line (`command.rs` passes the stored line through
unchanged, and its tests accept `"insert 1 otaviopace otavio@gmail.com"`), so
it skips the first whitespace-separated token — the keyword — and parses the
following tokens as identifier, username and email. -/
def Row.from_str (input : Str) : Except Error Row :=
  Row.parse_fields ((words input).drop 1)

/-- Modelled from the spec: the `Display` rendering of a row,
`"(<id>, <username>, <email>)"` (spec §4.1, pinned by the select test of
`command.rs`). -/
def Row.format (r : Row) : Str :=
  "(".toList ++ (Nat.repr r.id).toList ++ ", ".toList ++ r.username
    ++ ", ".toList ++ r.email ++ ")".toList

/-- Modelled from the spec: `table.rs` is not under `src/`.  Spec §3: an
ordered, append-only, unbounded sequence of rows. -/
abbrev Table := List Row

/-- `Table::new`: the empty table. -/
def Table.new : Table := []

/-- `Table::add_row`: append a row at the end; always succeeds. -/
def Table.add_row (t : Table) (r : Row) : Table := t ++ [r]

/-- `Table::list_rows`: all rows in insertion order, read-only. -/
def Table.list_rows (t : Table) : List Row := t

/-- The `MetaCommand` enum of `command.rs` (lines 50-53). -/
inductive MetaCommand
  | Exit
deriving DecidableEq

/-- The `Statement` enum of `command.rs` (lines 86-90); `Insert` carries the
raw stored line. -/
inductive Statement
  | Insert (input : Str)
  | Select
deriving DecidableEq

/-- A boxed `dyn Command` trait object: either a `MetaCommand` or a
`Statement`. -/
inductive Command
  | meta (m : MetaCommand)
  | stmt (s : Statement)
deriving DecidableEq

/-- Outcome of running a command: normal output, a returned error, or process
termination (`process::exit` inside `MetaCommand::execute`). -/
inductive RunResult
  | ok (output : Str)
  | err (e : Error)
  | exit (code : Nat)
deriving DecidableEq

/-- The success suffix appended by `Statement::execute`. -/
def executedLit : Str := "Executed.\n".toList

/-- The `insert` keyword. -/
def insertLit : Str := "insert".toList

/-- The `select` keyword. -/
def selectLit : Str := "select".toList

/-- The `.exit` meta-command literal. -/
def exitLit : Str := ".exit".toList

/-- `MetaCommand::from_str` of `command.rs` (lines 60-65). -/
def MetaCommand.from_str (input : Str) : Except Error Command :=
  if input = exitLit then Except.ok (Command.meta MetaCommand.Exit)
  else Except.error (build_not_implemented_error input)

/-- `Statement::from_str` of `command.rs` (lines 97-107). -/
def Statement.from_str (input : Str) : Except Error Command :=
  if insertLit.isPrefixOf input then Except.ok (Command.stmt (Statement.Insert input))
  else if selectLit.isPrefixOf input then Except.ok (Command.stmt Statement.Select)
  else Except.error (build_not_implemented_error input)

/-- `MetaCommand::execute` (lines 70-74): `Exit` calls `process::exit(0)`. -/
def MetaCommand.execute (m : MetaCommand) (t : Table) : RunResult × Table :=
  match m with
  | MetaCommand.Exit => (RunResult.exit 0, t)

/-- `Statement::insert` (lines 113-119): parse a row from the stored input and
append it; on success the output is the empty string. -/
def Statement.insert (input : Str) (t : Table) : Except Error (Str × Table) :=
  match Row.from_str input with
  | Except.error e => Except.error e
  | Except.ok row => Except.ok ("".toList, Table.add_row t row)

/-- `Statement::select` (lines 124-128): render every row followed by a
newline, in table order. -/
def Statement.select (t : Table) : Except Error Str :=
  Except.ok (((Table.list_rows t).map (fun r => Row.format r ++ "\n".toList)).flatten)

/-- `Statement`'s `Command::execute` impl (lines 135-146): run the variant's
logic and, on success only, append `Executed.\n`. -/
def Statement.execute (s : Statement) (t : Table) : RunResult × Table :=
  match s with
  | Statement.Insert input =>
    match Statement.insert input t with
    | Except.ok (out, t2) => (RunResult.ok (out ++ executedLit), t2)
    | Except.error e => (RunResult.err e, t)
  | Statement.Select =>
    match Statement.select t with
    | Except.ok out => (RunResult.ok (out ++ executedLit), t)
    | Except.error e => (RunResult.err e, t)

/-- Dispatch through the `Command` trait object. -/
def Command.execute (c : Command) (t : Table) : RunResult × Table :=
  match c with
  | Command.meta m => MetaCommand.execute m t
  | Command.stmt s => Statement.execute s t

/-- `build_command` (lines 12-18): look at the first character of the *raw*
input; a dot goes to `MetaCommand::from_str`, anything else to
`Statement::from_str`, both receiving the trimmed input. -/
def build_command (input : Str) : Except Error Command :=
  if input.head? = some '.' then MetaCommand.from_str (trim input)
  else Statement.from_str (trim input)

/-- `try_execute_command` (lines 28-33). -/
def try_execute_command (cr : Except Error Command) (t : Table) : RunResult × Table :=
  match cr with
  | Except.error e => (RunResult.err e, t)
  | Except.ok c => Command.execute c t

/-- `run_command` (lines 22-26): the sole entry point. -/
def run_command (t : Table) (command : Str) : RunResult × Table :=
  try_execute_command (build_command command) t

/-- The spec's words (§4.3, claim C6): "strip the leading `insert` keyword
from `text`".  Used only to state claim C6. -/
def strip_insert_keyword (s : Str) : Str :=
  if insertLit.isPrefixOf s then s.drop insertLit.length else s

/-- The Row parser exactly as the spec's words describe it (§4.1): its input
is already "the substring of an insert statement following the keyword", so no
token is skipped.  Used only to state claim C6. -/
def Row.from_str_spec (input : Str) : Except Error Row :=
  Row.parse_fields (words input)

/-- Insert execution as claim C6 describes it: the keyword is stripped from
the stored text and the remaining argument substring is handed to the Row
parser.  Used only to state claim C6. -/
def insert_execute_spec (input : Str) (t : Table) : RunResult × Table :=
  match Row.from_str_spec (strip_insert_keyword input) with
  | Except.ok row => (RunResult.ok ("".toList ++ executedLit), Table.add_row t row)
  | Except.error e => (RunResult.err e, t)

/-! ## Model validation: the unit tests of `src/src/command.rs`, replayed
against the embedding -/

theorem srcTest_insert_success :
    run_command Table.new ("insert 1 otaviopace otavio@gmail.com".toList)
      = (RunResult.ok executedLit,
         [⟨1, "otaviopace".toList, "otavio@gmail.com".toList⟩]) := by decide

theorem srcTest_select_after_insert :
    run_command [⟨1, "otaviopace".toList, "otavio@gmail.com".toList⟩] ("select".toList)
      = (RunResult.ok ("(1, otaviopace, otavio@gmail.com)\nExecuted.\n".toList),
         [⟨1, "otaviopace".toList, "otavio@gmail.com".toList⟩]) := by decide

theorem srcTest_insert_syntax_error :
    run_command Table.new ("insert text_id otaviopace otavio@gmail.com".toList)
      = (RunResult.err (Error.SyntaxError (syntaxMsg "id".toList)), Table.new) := by decide

theorem srcTest_insert_negative_id :
    run_command Table.new ("insert -1 otaviopace otavio@gmail.com".toList)
      = (RunResult.err (Error.SyntaxError (syntaxMsg "id".toList)), Table.new) := by decide

theorem srcTest_from_str_not_implemented :
    Statement.from_str ("unexistent statement".toList)
      = Except.error (build_not_implemented_error ("unexistent statement".toList)) := by decide

theorem srcTest_build_command_meta :
    build_command (".exit".toList) = Except.ok (Command.meta MetaCommand.Exit) := by decide

theorem srcTest_build_command_statement :
    Statement.from_str ("insert a b c".toList)
      = Except.ok (Command.stmt (Statement.Insert ("insert a b c".toList))) := by decide

/-! ## Helper lemmas about the string primitives -/

theorem isPrefixOf_self_append (l m : Str) : l.isPrefixOf (l ++ m) = true := by
  simp

theorem eq_append_of_isPrefixOf {l s : Str} (h : l.isPrefixOf s = true) :
    ∃ rest, s = l ++ rest := by
  simp at h
  obtain ⟨r, hr⟩ := h
  exact ⟨r, hr.symm⟩

theorem dropWhile_cons_false {p : Char → Bool} {c : Char} (s : Str) (h : p c = false) :
    (c :: s).dropWhile p = c :: s := by
  simp [List.dropWhile, h]

theorem trimLeft_cons_of_not_ws {c : Char} (s : Str) (h : c.isWhitespace = false) :
    trimLeft (c :: s) = c :: s := by
  simp [trimLeft, List.dropWhile, h]

theorem dropWhile_append_singleton {p : Char → Bool} {c : Char} (h : p c = false) :
    ∀ l : Str, ∃ m : Str, (l ++ [c]).dropWhile p = m ++ [c] := by
  intro l
  induction l with
  | nil => exact ⟨[], by simp [List.dropWhile, h]⟩
  | cons a t ih =>
    cases ha : p a with
    | true =>
      obtain ⟨m, hm⟩ := ih
      refine ⟨m, ?_⟩
      rw [List.cons_append]
      simp [List.dropWhile, ha, hm]
    | false =>
      refine ⟨a :: t, ?_⟩
      rw [List.cons_append]
      simp [List.dropWhile, ha]

theorem trim_eq_self {s : Str} {c d : Char}
    (h1 : s.head? = some c) (h2 : c.isWhitespace = false)
    (h3 : s.reverse.head? = some d) (h4 : d.isWhitespace = false) :
    trim s = s := by
  cases s with
  | nil => cases h1
  | cons a t =>
    have hac : a = c := by simpa using h1
    subst hac
    unfold trim
    rw [trimLeft_cons_of_not_ws t h2]
    cases hrev : (a :: t).reverse with
    | nil => rw [hrev] at h3; cases h3
    | cons b m =>
      have hb : b = d := by rw [hrev] at h3; simpa using h3
      subst hb
      rw [dropWhile_cons_false m h4, ← hrev, List.reverse_reverse]

theorem head_trim {s : Str} {c : Char} (h1 : s.head? = some c) (h2 : c.isWhitespace = false) :
    (trim s).head? = some c := by
  cases s with
  | nil => cases h1
  | cons a t =>
    have hac : a = c := by simpa using h1
    subst hac
    unfold trim
    rw [trimLeft_cons_of_not_ws t h2]
    have hr : (a :: t).reverse = t.reverse ++ [a] := by simp
    rw [hr]
    obtain ⟨m, hm⟩ := dropWhile_append_singleton (p := Char.isWhitespace) h2 t.reverse
    rw [hm]
    simp

theorem head_reverse_of_ne_nil {A e : Str} (he : e ≠ []) :
    ∃ d, (A ++ e).reverse.head? = some d ∧ d ∈ e := by
  cases hrev : e.reverse with
  | nil =>
    rw [List.reverse_eq_nil_iff] at hrev
    contradiction
  | cons d m =>
    refine ⟨d, ?_, ?_⟩
    · rw [List.reverse_append, hrev]
      rfl
    · have hd : d ∈ e.reverse := by rw [hrev]; simp
      simpa using hd

theorem build_command_dot {s : Str} (h : s.head? = some ('.')) :
    build_command s = MetaCommand.from_str (trim s) := by
  simp [build_command, h]

theorem build_command_not_dot {s : Str} (h : s.head? ≠ some ('.')) :
    build_command s = Statement.from_str (trim s) := by
  simp [build_command, h]

theorem head_ne_dot_of_keyword {s k : Str} {c : Char}
    (hk : k.head? = some c) (hc : ¬ c = ('.')) (h : k.isPrefixOf (trim s) = true) :
    s.head? ≠ some ('.') := by
  intro hd
  have ht : (trim s).head? = some ('.') := head_trim hd (by decide)
  obtain ⟨rest, hr⟩ := eq_append_of_isPrefixOf h
  cases k with
  | nil => cases hk
  | cons a k2 =>
    have hac : a = c := by simpa using hk
    subst hac
    rw [hr] at ht
    simp at ht
    exact hc ht

/-! ## Helper lemmas about `words` -/

theorem wordsAux_chunk {w : Str} (hnw : ∀ x ∈ w, x.isWhitespace = false) :
    ∀ (s acc : Str), wordsAux (w ++ s) acc = wordsAux s (w.reverse ++ acc) := by
  induction w with
  | nil => intro s acc; rfl
  | cons a w2 ih =>
    intro s acc
    have ha : a.isWhitespace = false := hnw a (by simp)
    have htail : ∀ x ∈ w2, x.isWhitespace = false := fun x hx => hnw x (by simp [hx])
    have h1 : wordsAux ((a :: w2) ++ s) acc = wordsAux (w2 ++ s) (a :: acc) := by
      simp [wordsAux, ha]
    rw [h1, ih htail s (a :: acc)]
    simp [List.append_assoc]

theorem words_cons_of_ws {c : Char} (s : Str) (h : c.isWhitespace = true) :
    words (c :: s) = words s := by
  simp [words, wordsAux, h]

theorem words_token_ws (c : Char) (t : Str) {w : Str} (hw : w ≠ [])
    (hnw : ∀ x ∈ w, x.isWhitespace = false) (hc : c.isWhitespace = true) :
    words (w ++ c :: t) = w :: words t := by
  have h1 : words (w ++ c :: t) = wordsAux (c :: t) w.reverse := by
    have h := wordsAux_chunk hnw (c :: t) []
    simpa [words] using h
  have hrev : ¬ w.reverse = [] := by simpa using hw
  rw [h1]
  simp [wordsAux, hc, hrev, words]

theorem words_token_nil {w : Str} (hw : w ≠ []) (hnw : ∀ x ∈ w, x.isWhitespace = false) :
    words w = [w] := by
  have h1 : words (w ++ []) = wordsAux [] w.reverse := by
    have h := wordsAux_chunk hnw [] []
    simpa [words] using h
  rw [List.append_nil] at h1
  have hrev : ¬ w.reverse = [] := by simpa using hw
  rw [h1]
  simp [wordsAux, hrev]

theorem words_insert_line {idT u e : Str}
    (hid1 : idT ≠ []) (hid2 : ∀ x ∈ idT, x.isWhitespace = false)
    (hu1 : u ≠ []) (hu2 : ∀ x ∈ u, x.isWhitespace = false)
    (he1 : e ≠ []) (he2 : ∀ x ∈ e, x.isWhitespace = false) :
    words (insertLit ++ spaceChar :: (idT ++ spaceChar :: (u ++ spaceChar :: e)))
      = [insertLit, idT, u, e] := by
  have hsp : spaceChar.isWhitespace = true := by decide
  rw [words_token_ws spaceChar _ (by decide) (by decide) hsp,
      words_token_ws spaceChar _ hid1 hid2 hsp,
      words_token_ws spaceChar _ hu1 hu2 hsp,
      words_token_nil he1 he2]

theorem empty_toList : "".toList = ([] : Str) := rfl

theorem run_insert_core (idT u e : Str) (t : Table) (n : Nat)
    (hid : parse_id idT = some n)
    (hidw : ∀ x ∈ idT, x.isWhitespace = false)
    (hu1 : u ≠ []) (hu2 : ∀ x ∈ u, x.isWhitespace = false)
    (he1 : e ≠ []) (he2 : ∀ x ∈ e, x.isWhitespace = false) :
    run_command t (insertLit ++ spaceChar :: (idT ++ spaceChar :: (u ++ spaceChar :: e)))
      = (RunResult.ok executedLit, Table.add_row t ⟨n, u, e⟩) := by
  have hid1 : idT ≠ [] := by
    intro hnil
    rw [hnil] at hid
    simp [parse_id] at hid
  have hwords := words_insert_line hid1 hidw hu1 hu2 he1 he2
  have hhead : (insertLit ++ spaceChar :: (idT ++ spaceChar :: (u ++ spaceChar :: e))).head?
      = some ('i') := rfl
  have hne : (insertLit ++ spaceChar :: (idT ++ spaceChar :: (u ++ spaceChar :: e))).head?
      ≠ some ('.') := by
    rw [hhead]
    decide
  have hA : insertLit ++ spaceChar :: (idT ++ spaceChar :: (u ++ spaceChar :: e))
      = (insertLit ++ spaceChar :: (idT ++ spaceChar :: (u ++ [spaceChar]))) ++ e := by
    simp [List.append_assoc]
  obtain ⟨d, hd, hdm⟩ := head_reverse_of_ne_nil
      (A := insertLit ++ spaceChar :: (idT ++ spaceChar :: (u ++ [spaceChar]))) he1
  have hrh : (insertLit ++ spaceChar :: (idT ++ spaceChar :: (u ++ spaceChar :: e))).reverse.head?
      = some d := by
    rw [hA]
    exact hd
  have htrim : trim (insertLit ++ spaceChar :: (idT ++ spaceChar :: (u ++ spaceChar :: e)))
      = insertLit ++ spaceChar :: (idT ++ spaceChar :: (u ++ spaceChar :: e)) :=
    trim_eq_self hhead (by decide) hrh (he2 d hdm)
  have hpre : insertLit.isPrefixOf
      (insertLit ++ spaceChar :: (idT ++ spaceChar :: (u ++ spaceChar :: e))) = true :=
    isPrefixOf_self_append _ _
  have hbc : build_command (insertLit ++ spaceChar :: (idT ++ spaceChar :: (u ++ spaceChar :: e)))
      = Except.ok (Command.stmt (Statement.Insert
          (insertLit ++ spaceChar :: (idT ++ spaceChar :: (u ++ spaceChar :: e))))) := by
    rw [build_command_not_dot hne, htrim]
    simp [Statement.from_str, hpre]
  have hrow : Row.from_str (insertLit ++ spaceChar :: (idT ++ spaceChar :: (u ++ spaceChar :: e)))
      = Except.ok ⟨n, u, e⟩ := by
    unfold Row.from_str
    rw [hwords]
    simp [Row.parse_fields, hid]
  simp [run_command, try_execute_command, hbc, Command.execute, Statement.execute,
        Statement.insert, hrow, empty_toList]

/-- C1: for every well-formed insert input `insert <id> <username> <email>` whose
id token parses as a non-negative integer, `run_command` returns
`Ok("Executed.\n")`, the table grows by exactly one row, and the appended row is
the new last element and equals `(id, username, email)`. -/
theorem C1_insert_executes_and_appends (idT u e : Str) (t : Table) (n : Nat)
    (hid : parse_id idT = some n)
    (hidw : ∀ x ∈ idT, x.isWhitespace = false)
    (hu1 : u ≠ []) (hu2 : ∀ x ∈ u, x.isWhitespace = false)
    (he1 : e ≠ []) (he2 : ∀ x ∈ e, x.isWhitespace = false) :
    run_command t ("insert ".toList ++ idT ++ " ".toList ++ u ++ " ".toList ++ e)
      = (RunResult.ok executedLit, Table.add_row t ⟨n, u, e⟩)
    ∧ (Table.add_row t ⟨n, u, e⟩).length = t.length + 1
    ∧ (Table.add_row t ⟨n, u, e⟩).getLast? = some ⟨n, u, e⟩ := by
  have hshape : "insert ".toList ++ idT ++ " ".toList ++ u ++ " ".toList ++ e
      = insertLit ++ spaceChar :: (idT ++ spaceChar :: (u ++ spaceChar :: e)) := by
    have h1 : "insert ".toList = insertLit ++ [spaceChar] := by decide
    have h2 : " ".toList = [spaceChar] := by decide
    rw [h1, h2]
    simp [List.append_assoc]
  refine ⟨?_, ?_, ?_⟩
  · rw [hshape]
    exact run_insert_core idT u e t n hid hidw hu1 hu2 he1 he2
  · simp [Table.add_row]
  · simp [Table.add_row, List.getLast?_concat]

/-- C1 witness: the concrete scenario of the spec,
`insert 1 otaviopace otavio@gmail.com` on the empty table. -/
theorem C1_witness :
    run_command Table.new ("insert ".toList ++ "1".toList ++ " ".toList
        ++ "otaviopace".toList ++ " ".toList ++ "otavio@gmail.com".toList)
      = (RunResult.ok executedLit,
         Table.add_row Table.new ⟨1, "otaviopace".toList, "otavio@gmail.com".toList⟩) :=
  (C1_insert_executes_and_appends "1".toList "otaviopace".toList "otavio@gmail.com".toList
    Table.new 1 (by decide) (by decide) (by decide) (by decide) (by decide) (by decide)).1

/-- C2: `select` renders every row of the table in insertion order as
`(<id>, <username>, <email>)` plus a newline, concatenated and followed by
`Executed.\n`; on the empty table the output is exactly `Executed.\n`; the
table is unchanged. -/
theorem C2_select_renders_rows (t : Table) :
    run_command t ("select".toList)
      = (RunResult.ok
          (((Table.list_rows t).map (fun r => Row.format r ++ "\n".toList)).flatten
            ++ executedLit), t)
    ∧ run_command Table.new ("select".toList) = (RunResult.ok executedLit, Table.new) := by
  exact ⟨rfl, rfl⟩

/-- C3: every insert-classified input whose id token is absent or fails to
parse as a non-negative integer (non-numeric or negative) makes `run_command`
return the `'id'` syntax error and leaves the table unchanged. -/
theorem C3_bad_id_is_rejected (s : Str) (t : Table)
    (hins : insertLit.isPrefixOf (trim s) = true)
    (hbad : ((words (trim s)).drop 1).head? = none
          ∨ ∃ idT, ((words (trim s)).drop 1).head? = some idT ∧ parse_id idT = none) :
    run_command t s = (RunResult.err (Error.SyntaxError (syntaxMsg "id".toList)), t) := by
  have hne : s.head? ≠ some ('.') :=
    head_ne_dot_of_keyword (k := insertLit) rfl (by decide) hins
  have hbc : build_command s = Except.ok (Command.stmt (Statement.Insert (trim s))) := by
    rw [build_command_not_dot hne]
    simp [Statement.from_str, hins]
  have hrow : Row.from_str (trim s)
      = Except.error (Error.SyntaxError (syntaxMsg "id".toList)) := by
    unfold Row.from_str
    rcases hbad with h | ⟨idT, h1, h2⟩
    · cases hx : (words (trim s)).drop 1 with
      | nil => rfl
      | cons a rest => rw [hx] at h; cases h
    · cases hx : (words (trim s)).drop 1 with
      | nil => rw [hx] at h1; cases h1
      | cons a rest =>
        rw [hx] at h1
        have ha : a = idT := by simpa using h1
        subst ha
        simp [Row.parse_fields, h2]
  simp [run_command, try_execute_command, hbc, Command.execute, Statement.execute,
        Statement.insert, hrow]

/-- C3 witness: the concrete scenario of the spec,
`insert -1 otaviopace otavio@gmail.com` on the empty table. -/
theorem C3_witness :
    run_command Table.new ("insert -1 otaviopace otavio@gmail.com".toList)
      = (RunResult.err (Error.SyntaxError (syntaxMsg "id".toList)), Table.new) :=
  C3_bad_id_is_rejected ("insert -1 otaviopace otavio@gmail.com".toList) Table.new
    (by decide) (Or.inr ⟨"-1".toList, by decide, by decide⟩)

/-- C4 counterexample: on input `" bad"` (leading whitespace), `run_command`
interpolates the *trimmed* text `bad` into the error message, not the original
text `" bad"`, refuting the claim as stated. -/
theorem C4_counterexample :
    run_command Table.new (" bad".toList)
        = (RunResult.err (Error.UnrecognizedStatement (unrecognizedMsg ("bad".toList))),
           Table.new)
    ∧ run_command Table.new (" bad".toList)
        ≠ (RunResult.err (Error.UnrecognizedStatement (unrecognizedMsg (" bad".toList))),
           Table.new) := by
  decide

/-- C4 (amended): for every input whose trimmed text does not start with `.`,
`insert` or `select`, `run_command` returns `UnrecognizedStatement` whose
message interpolates the *trimmed* input text, and the table is unchanged. -/
theorem C4_amended_unrecognized (s : Str) (t : Table)
    (h1 : (trim s).head? ≠ some ('.'))
    (h2 : insertLit.isPrefixOf (trim s) = false)
    (h3 : selectLit.isPrefixOf (trim s) = false) :
    run_command t s
      = (RunResult.err (Error.UnrecognizedStatement (unrecognizedMsg (trim s))), t) := by
  have hne : s.head? ≠ some ('.') := by
    intro hd
    exact h1 (head_trim hd (by decide))
  have hbc : build_command s = Except.error (build_not_implemented_error (trim s)) := by
    rw [build_command_not_dot hne]
    simp [Statement.from_str, h2, h3]
  simp [run_command, try_execute_command, hbc, build_not_implemented_error]

/-- C4 witness: the spec's concrete scenario `unexistent statement`, plus a
whitespace-padded variant. -/
theorem C4_witness :
    run_command Table.new ("unexistent statement".toList)
      = (RunResult.err (Error.UnrecognizedStatement
          (unrecognizedMsg (trim ("unexistent statement".toList)))), Table.new) :=
  C4_amended_unrecognized ("unexistent statement".toList) Table.new
    (by decide) (by decide) (by decide)

/-- C5 counterexample: classification looks at the first character of the
*untrimmed* input, so `" .exit"` (leading whitespace) is not classified as a
meta-command; it is sent to statement parsing and rejected. -/
theorem C5_counterexample :
    build_command (" .exit".toList) ≠ Except.ok (Command.meta MetaCommand.Exit)
    ∧ run_command Table.new (" .exit".toList)
        = (RunResult.err (Error.UnrecognizedStatement (unrecognizedMsg (".exit".toList))),
           Table.new) := by
  decide

/-- C5 (amended): classification inspects only the first character of the
*original* input: a leading `.` delegates to MetaCommand parsing of the
trimmed input, anything else delegates to Statement parsing of the trimmed
input. -/
theorem C5_amended_classification (s : Str) :
    (s.head? = some ('.') → build_command s = MetaCommand.from_str (trim s))
    ∧ (s.head? ≠ some ('.') → build_command s = Statement.from_str (trim s)) :=
  ⟨fun h => build_command_dot h, fun h => build_command_not_dot h⟩

/-- C5 witness: the amended classification at `.exit` and `" .exit"`. -/
theorem C5_witness :
    build_command (".exit".toList) = MetaCommand.from_str (trim (".exit".toList))
    ∧ build_command (" .exit".toList) = Statement.from_str (trim (" .exit".toList)) :=
  ⟨(C5_amended_classification (".exit".toList)).1 (by decide),
   (C5_amended_classification (" .exit".toList)).2 (by decide)⟩

/-- C6 counterexample: executing `Insert("insertion 1 a b")` succeeds and
appends the row `(1, a, b)`, whereas handing the keyword-stripped substring
`"ion 1 a b"` to the spec's Row parser fails with the `'id'` syntax error —
so the stripped argument substring is *not* what is handed to the Row parser. -/
theorem C6_counterexample :
    Statement.execute (Statement.Insert ("insertion 1 a b".toList)) Table.new
        ≠ insert_execute_spec ("insertion 1 a b".toList) Table.new
    ∧ Statement.execute (Statement.Insert ("insertion 1 a b".toList)) Table.new
        = (RunResult.ok executedLit, [⟨1, "a".toList, "b".toList⟩])
    ∧ insert_execute_spec ("insertion 1 a b".toList) Table.new
        = (RunResult.err (Error.SyntaxError (syntaxMsg "id".toList)), Table.new) := by
  decide

/-- C6 (amended): when an Insert command executes, the *full stored line*,
keyword token included, is handed to the Row parser, which itself skips the
first whitespace-separated token and parses the following tokens as id,
username and email. -/
theorem C6_amended_full_line_to_row (input : Str) (t : Table) :
    Statement.execute (Statement.Insert input) t
        = (match Row.from_str input with
           | Except.ok row => (RunResult.ok executedLit, Table.add_row t row)
           | Except.error e => (RunResult.err e, t))
    ∧ Row.from_str input = Row.parse_fields ((words input).drop 1) := by
  refine ⟨?_, rfl⟩
  cases h : Row.from_str input with
  | ok row => simp [Statement.execute, Statement.insert, h, empty_toList]
  | error e => simp [Statement.execute, Statement.insert, h]

/-- C7: MetaCommand parsing recognizes exactly the literal `.exit` as the Exit
command; any other input fails with `UnrecognizedStatement` interpolating the
parser's input text; a dot-prefixed input reaches MetaCommand parsing with the
trimmed text. -/
theorem C7_meta_command_exact (s : Str) :
    (MetaCommand.from_str s = Except.ok (Command.meta MetaCommand.Exit) ↔ s = exitLit)
    ∧ (s ≠ exitLit →
        MetaCommand.from_str s
          = Except.error (Error.UnrecognizedStatement (unrecognizedMsg s)))
    ∧ (s.head? = some ('.') → build_command s = MetaCommand.from_str (trim s)) := by
  refine ⟨⟨?_, ?_⟩, ?_, fun h => build_command_dot h⟩
  · intro h
    by_contra hne
    simp [MetaCommand.from_str, hne] at h
  · intro h
    simp [MetaCommand.from_str, h]
  · intro h
    simp [MetaCommand.from_str, h, build_not_implemented_error]

/-- C7 witness: `.foo` is rejected with the interpolated message, and `.exit`
input reaches MetaCommand parsing trimmed. -/
theorem C7_witness :
    MetaCommand.from_str (".foo".toList)
        = Except.error (Error.UnrecognizedStatement (unrecognizedMsg (".foo".toList)))
    ∧ build_command (".exit".toList) = MetaCommand.from_str (trim (".exit".toList)) :=
  ⟨(C7_meta_command_exact (".foo".toList)).2.1 (by decide),
   (C7_meta_command_exact (".exit".toList)).2.2 (by decide)⟩

/-- C8: a trimmed input starting with `insert` parses to an `Insert` carrying
the entire trimmed line; a trimmed input not starting with `insert` but
starting with `select` parses to `Select`, with trailing tokens ignored. -/
theorem C8_statement_classification (s : Str) :
    (insertLit.isPrefixOf (trim s) = true →
        Statement.from_str (trim s) = Except.ok (Command.stmt (Statement.Insert (trim s)))
        ∧ build_command s = Except.ok (Command.stmt (Statement.Insert (trim s))))
    ∧ (insertLit.isPrefixOf (trim s) = false → selectLit.isPrefixOf (trim s) = true →
        Statement.from_str (trim s) = Except.ok (Command.stmt Statement.Select)
        ∧ build_command s = Except.ok (Command.stmt Statement.Select)) := by
  constructor
  · intro h
    have hne : s.head? ≠ some ('.') :=
      head_ne_dot_of_keyword (k := insertLit) rfl (by decide) h
    have h1 : Statement.from_str (trim s)
        = Except.ok (Command.stmt (Statement.Insert (trim s))) := by
      simp [Statement.from_str, h]
    exact ⟨h1, by rw [build_command_not_dot hne, h1]⟩
  · intro h1 h2
    have hne : s.head? ≠ some ('.') :=
      head_ne_dot_of_keyword (k := selectLit) rfl (by decide) h2
    have h3 : Statement.from_str (trim s) = Except.ok (Command.stmt Statement.Select) := by
      simp [Statement.from_str, h1, h2]
    exact ⟨h3, by rw [build_command_not_dot hne, h3]⟩

/-- C8 witness: `insert a b c` carries the whole line; `select now` ignores the
trailing token. -/
theorem C8_witness :
    Statement.from_str (trim ("insert a b c".toList))
        = Except.ok (Command.stmt (Statement.Insert (trim ("insert a b c".toList))))
    ∧ build_command ("select now".toList) = Except.ok (Command.stmt Statement.Select) :=
  ⟨((C8_statement_classification ("insert a b c".toList)).1 (by decide)).1,
   ((C8_statement_classification ("select now".toList)).2 (by decide) (by decide)).2⟩

/-- C9: `run_command` is deterministic — two runs from equal table contents
with equal input text (other than `.exit`) return equal results and equal
final tables. -/
theorem C9_deterministic (t1 t2 : Table) (s1 s2 : Str)
    (ht : t1 = t2) (hs : s1 = s2) (hx : s1 ≠ exitLit) :
    run_command t1 s1 = run_command t2 s2 := by
  subst ht
  subst hs
  rfl

/-- C9 witness: two identical `select` runs on the empty table agree. -/
theorem C9_witness :
    run_command Table.new ("select".toList) = run_command Table.new ("select".toList) :=
  C9_deterministic Table.new Table.new ("select".toList) ("select".toList) rfl rfl (by decide)

/-- C10: keyword classification is pure prefix matching with no word-boundary
check — `selection` succeeds and behaves exactly as `select`, and
`insertion 1 a b` is classified as an `Insert` statement. -/
theorem C10_prefix_matching (t : Table) :
    run_command t ("selection".toList) = run_command t ("select".toList)
    ∧ run_command t ("selection".toList)
        = (RunResult.ok
            (((Table.list_rows t).map (fun r => Row.format r ++ "\n".toList)).flatten
              ++ executedLit), t)
    ∧ build_command ("insertion 1 a b".toList)
        = Except.ok (Command.stmt (Statement.Insert ("insertion 1 a b".toList))) := by
  exact ⟨rfl, rfl, by decide⟩

end Scoolite
